import Mathlib

/-!
Verification development for the mcp-rag-server repository.

The Python sources under src/ are shallowly embedded below: pure request
handlers become Lean functions, module import resolution becomes explicit
name lookup, the chunk store becomes a list of chunk records with explicit
state passing, and Python exceptions become Except / explicit outcome types.
Modules that the repository imports but whose files are not present under
src/ (rag_service, vector_database, embedding_generator, document_processor)
are modelled from the specification, and each such definition says so in its
doc comment.
-/

namespace McpRag

/- ================================================================
   Part 1: Python import semantics for the src package.

   A module is represented by the list of top-level names it binds
   (its functions, classes, constants, and the names it imports).
   A statement `from M import x` succeeds exactly when x is among
   M's names; loading a module runs its import statements in source
   order and fails at the first unresolvable one.  External library
   imports (os, fastapi, pydantic, uvicorn, dotenv, ...) are assumed
   resolvable and are omitted.
   ================================================================ -/

/-- An import failure: the module looked into and the missing name. -/
structure ImportFailure where
  fromModule : String
  missingName : String
deriving DecidableEq, Repr

/-- Names bound at top level by src/mcp_server.py: the module defines only
the API-key dependency helper and its constants; there is no MCPServer. -/
def mcp_server_names : List String :=
  ["os", "Depends", "HTTPException", "APIKeyHeader",
   "API_KEY", "API_KEY_NAME", "api_key_header", "get_api_key"]

/-- Modelled from the spec: the module src/rag_service.py is imported by
rag_tools.py but its file is not under src/; per its callers it binds the
class RAGService. -/
def rag_service_names : List String := ["RAGService"]

/-- Modelled from the spec: src/embedding_generator.py is not under src/;
per its callers it binds EmbeddingGenerator. -/
def embedding_generator_names : List String := ["EmbeddingGenerator"]

/-- Modelled from the spec: src/vector_database.py is not under src/;
per its callers it binds VectorDatabase. -/
def vector_database_names : List String := ["VectorDatabase"]

/-- Modelled from the spec: src/document_processor.py is not under src/;
per its callers it binds DocumentProcessor. -/
def document_processor_names : List String := ["DocumentProcessor"]

/-- Names bound at top level by src/rag_tools.py. -/
def rag_tools_names : List String :=
  ["os", "APIRouter", "Depends", "HTTPException", "BaseModel", "Field",
   "RAGService", "EmbeddingGenerator", "VectorDatabase", "DocumentProcessor",
   "create_rag_service_from_env", "router", "lru_cache", "get_rag_service",
   "SearchInput", "SearchResultItem", "SearchOutput", "DocumentCountOutput",
   "search", "get_document_count", "register_rag_tools"]

/-- Names src/main.py would bind if its imports all resolved.  Note that
no name create_app is ever defined by main.py. -/
def main_names : List String :=
  ["sys", "os", "argparse", "importlib", "logging", "load_dotenv",
   "MCPServer", "register_rag_tools", "create_rag_service_from_env", "main"]

/-- `from m import n` : succeeds iff n is among the names bound by m. -/
def fromImport (names : List String) (m n : String) :
    Except ImportFailure Unit :=
  if n ∈ names then .ok () else .error ⟨m, n⟩

/-- Loading src/mcp_server.py: it has no intra-package imports. -/
def load_mcp_server : Except ImportFailure Unit := .ok ()

/-- Loading src/rag_tools.py: its intra-package imports in source order
(lines 12-15 of rag_tools.py). -/
def load_rag_tools : Except ImportFailure Unit := do
  fromImport rag_service_names "src.rag_service" "RAGService"
  fromImport embedding_generator_names "src.embedding_generator" "EmbeddingGenerator"
  fromImport vector_database_names "src.vector_database" "VectorDatabase"
  fromImport document_processor_names "src.document_processor" "DocumentProcessor"

/-- Loading src/main.py: its intra-package imports in source order
(lines 16 and 18 of main.py).  Each `from` statement first loads the
target module, then resolves the requested names. -/
def load_main : Except ImportFailure Unit := do
  load_mcp_server
  fromImport mcp_server_names "src.mcp_server" "MCPServer"
  load_rag_tools
  fromImport rag_tools_names "src.rag_tools" "register_rag_tools"
  fromImport rag_tools_names "src.rag_tools" "create_rag_service_from_env"

/-- Loading src/cli.py: its intra-package imports in source order
(lines 13-15 of cli.py). -/
def load_cli : Except ImportFailure Unit := do
  load_rag_tools
  fromImport rag_tools_names "src.rag_tools" "create_rag_service_from_env"
  fromImport document_processor_names "src.document_processor" "DocumentProcessor"
  load_main
  fromImport main_names "src.main" "create_app"

/-- Outcome of `python -m src.main` (resp. `python -m src.cli`): either the
module fails to import, or the module body runs (only then could main()
execute and, for the server, reach server.start). -/
inductive ModuleRun where
  | importFailed (e : ImportFailure)
  | bodyRan
deriving DecidableEq, Repr

/-- Running `python -m src.main`: the module must import before main()
can run; server.start (main.py line 102) is only reachable in bodyRan. -/
def run_main_module : ModuleRun :=
  match load_main with
  | .error e => .importFailed e
  | .ok _ => .bodyRan

/-- Running `python -m src.cli`: the module must import before the argparse
dispatch to the index / runserver commands can run. -/
def run_cli_module : ModuleRun :=
  match load_cli with
  | .error e => .importFailed e
  | .ok _ => .bodyRan

/- ================================================================
   Part 2: the API-key dependency (src/mcp_server.py, get_api_key).

   API_KEY = os.environ.getid("API_KEY") is None when unset; the
   X-API-KEY header delivered by APIKeyHeader(auto_error=False) is
   None when missing.  Python truthiness of an optional string is
   false exactly on None and the empty string.
   ================================================================ -/

/-- Python truthiness of an Optional[str] value. -/
def pyTruthy : Option String → Bool
  | none => false
  | some s => !(decide (s = ""))

/-- Result of the get_api_key dependency: the request proceeds (carrying
the value the dependency returns) or HTTP 403 is raised. -/
inductive AuthResult where
  | allow (returned : Option String)
  | forbidden
deriving DecidableEq, Repr

/-- src/mcp_server.py lines 15-24: skip the check when API_KEY is not
truthy; otherwise 403 unless the header is truthy and equal to API_KEY. -/
def get_api_key (envKey header : Option String) : AuthResult :=
  if !pyTruthy envKey then .allow none
  else if !pyTruthy header then .forbidden
  else if header = envKey then .allow header
  else .forbidden

/- ================================================================
   Part 3: the /rag/search endpoint (src/rag_tools.py).

   SearchInput is the request model: plain int / bool / str fields with
   defaults and no value constraints (no ge / le in any Field call), so
   pydantic validation accepts every well-typed request.
   SearchResultItem is the response element model.
   The handler body is a try block: a document count of zero raises
   HTTPException(404, ...) and rag_service.search is never called;
   otherwise rag_service.search runs with the request fields verbatim.
   The trailing `except Exception` catches every exception raised in
   the try block, including that HTTPException(404), and re-raises
   HTTPException(500, ...) wrapping str of the caught exception.
   ================================================================ -/

/-- The SearchInput request model of rag_tools.py (lines 70-75).
Pydantic defaults: limit 5, with_context true, context_size 1,
full_document false. -/
structure SearchInput where
  query : String
  limit : Int
  with_context : Bool
  context_size : Int
  full_document : Bool
deriving DecidableEq, Repr

/-- A SearchInput with every defaulted field at its declared default. -/
def SearchInput.withDefaults (q : String) : SearchInput :=
  ⟨q, 5, true, 1, false⟩

/-- Pydantic validation of SearchInput: the Field declarations carry no
value constraints, so every well-typed payload is accepted. -/
def searchInputAccepted (_p : SearchInput) : Bool := true

/-- The SearchResultItem response element model of rag_tools.py
(lines 77-83): exactly six fields; the document identity is carried
under the name file_path (a document is identified by its source path);
similarity is a float, modelled as a rational. -/
structure SearchResultItem where
  file_path : String
  content : String
  chunk_index : Int
  similarity : Rat
  is_context : Bool
  is_full_document : Bool
deriving DecidableEq, Repr

/-- An exception raised inside the try block of the search handler:
either the HTTPException(404) for an empty index (its detail is the
fixed empty-index message), or an exception escaping rag_service.search. -/
inductive SearchExn where
  | http (status : Nat) (emptyIndexDetail : Bool)
  | engineErr (message : String)
deriving DecidableEq, Repr

/-- The message field of a successful SearchOutput. -/
inductive SearchMessage where
  | noMatches (query : String)
  | found (query : String) (count : Nat)
deriving DecidableEq, Repr

/-- What the caller of /rag/search observes: a 200 SearchOutput, or an
HTTPException with its status and, for the handler's own 500 wrapper,
the exception whose str() it embeds in its detail. -/
inductive SearchResponse where
  | ok (results : List SearchResultItem) (message : SearchMessage)
  | httpError (status : Nat) (wrappedFrom : SearchExn)
deriving DecidableEq, Repr

/-- The try block of the search handler (rag_tools.py lines 107-125),
together with the list of calls it makes to rag_service.search.  The
engine call outcome is passed in as `engine` (the module itself is not
under src/); `.error m` stands for rag_service.search raising. -/
def searchBody (docCount : Nat) (p : SearchInput)
    (engine : Except String (List SearchResultItem)) :
    Except SearchExn (List SearchResultItem × SearchMessage) ×
      List SearchInput :=
  if docCount = 0 then
    (.error (.http 404 true), [])
  else
    match engine with
    | .error m => (.error (.engineErr m), [p])
    | .ok results =>
        if results = [] then (.ok ([], .noMatches p.query), [p])
        else (.ok (results, .found p.query results.length), [p])

/-- The whole search handler (rag_tools.py lines 96-128): the try block,
then `except Exception as e: raise HTTPException(500, ...str(e))`, which
catches every exception of the body, the empty-index HTTPException(404)
included. -/
def searchEndpoint (docCount : Nat) (p : SearchInput)
    (engine : Except String (List SearchResultItem)) :
    SearchResponse × List SearchInput :=
  match searchBody docCount p engine with
  | (.ok (rs, msg), calls) => (.ok rs msg, calls)
  | (.error e, calls) => (.httpError 500 e, calls)

/- ================================================================
   Part 4: the Chunk Store and the retrieval engine.

   The modules implementing them (vector_database.py, rag_service.py)
   are imported by the code under src/ but their files are not present
   there; the definitions of this part are therefore modelled from the
   specification (each doc comment says so), with the embedder kept
   opaque: a search works against a similarity function
   sim : Chunk -> Rat, the score of each stored chunk against the
   already-embedded query (cosine similarity is the reference metric).
   ================================================================ -/

/-- Modelled from the spec: a stored chunk row, keyed by
(document identity, chunk index), with its content and embedding
(spec section 3).  The document identity is the source file path. -/
structure Chunk where
  document_id : String
  chunk_index : Nat
  content : String
  embedding : List Rat
deriving DecidableEq, Repr

/-- The chunks a store holds for one document identity, in store order. -/
def chunksOf (store : List Chunk) (d : String) : List Chunk :=
  store.filter (fun c => decide (c.document_id = d))

/-- Modelled from the spec: countDocuments returns the number of distinct
document identities with at least one chunk (spec section 4.1). -/
def countDocuments (store : List Chunk) : Nat :=
  ((store.map (·.document_id)).dedup).length

/-- Modelled from the spec: a StoreError on connectivity loss or
constraint violation (spec section 4.1). -/
inductive StoreError where
  | failure
deriving DecidableEq, Repr

/-- The chunk rows a replaceDocument call inserts: chunk_index assigned
by position, 0-based, in input order. -/
def freshChunks (d : String) (chunks : List (String × List Rat)) :
    List Chunk :=
  chunks.enum.map (fun p => ⟨d, p.1, p.2.1, p.2.2⟩)

/-- Modelled from the spec: replaceDocument atomically deletes all chunks
of the document and inserts the new sequence; it is all-or-nothing, so on
failure (the environment-supplied `fails` oracle) the store is left in its
pre-call state (spec section 4.1).  The pair returned is (call outcome,
store state an external reader observes after the call). -/
def replaceDocument (fails : Bool) (store : List Chunk) (d : String)
    (chunks : List (String × List Rat)) :
    Except StoreError Unit × List Chunk :=
  if fails then (.error .failure, store)
  else (.ok (),
    store.filter (fun c => !(decide (c.document_id = d))) ++ freshChunks d chunks)

/-- Insertion step of the rank sort: place c before the first element it
ranks no worse than. -/
def insertRanked (le : Chunk → Chunk → Bool) (c : Chunk) :
    List Chunk → List Chunk
  | [] => [c]
  | x :: xs => if le c x then c :: x :: xs else x :: insertRanked le c xs

/-- Insertion sort by a boolean ranking. -/
def sortRanked (le : Chunk → Chunk → Bool) : List Chunk → List Chunk
  | [] => []
  | x :: xs => insertRanked le x (sortRanked le xs)

/-- Strict lexicographic order on lists of naturals. -/
def natListLT : List Nat → List Nat → Bool
  | _, [] => false
  | [], _ :: _ => true
  | a :: as, b :: bs => decide (a < b) || (decide (a = b) && natListLT as bs)

/-- Strict lexicographic order on strings by Unicode code point. -/
def strLT (a b : String) : Bool :=
  natListLT (a.data.map Char.toNat) (b.data.map Char.toNat)

/-- Tie-break order of the spec: (document_id, chunk_index) ascending. -/
def chunkKeyLE (a b : Chunk) : Bool :=
  strLT a.document_id b.document_id ||
    (decide (a.document_id = b.document_id) &&
      decide (a.chunk_index ≤ b.chunk_index))

/-- Ranking of the spec: similarity descending, ties broken by
(document_id, chunk_index) ascending. -/
def rankLE (sim : Chunk → Rat) (a b : Chunk) : Bool :=
  decide (sim b < sim a) || (decide (sim a = sim b) && chunkKeyLE a b)

/-- Modelled from the spec: topKSimilar returns up to k chunks ranked by
similarity descending with the deterministic tie-break, fewer when fewer
exist, empty on an empty store (spec section 4.1); each is paired with
its similarity. -/
def topKSimilar (store : List Chunk) (sim : Chunk → Rat) (k : Nat) :
    List (Chunk × Rat) :=
  ((sortRanked (rankLE sim) store).take k).map (fun c => (c, sim c))

/-- Ascending order on chunk_index. -/
def idxLE (a b : Chunk) : Bool := decide (a.chunk_index ≤ b.chunk_index)

/-- Modelled from the spec: getChunksInRange returns the document chunks
with chunk_index in [low, high] intersected with the valid range, ordered
ascending (spec section 4.1). -/
def getChunksInRange (store : List Chunk) (d : String) (low high : Nat) :
    List Chunk :=
  sortRanked idxLE (store.filter (fun c =>
    decide (c.document_id = d) && decide (low ≤ c.chunk_index) &&
      decide (c.chunk_index ≤ high)))

/-- Modelled from the spec: getAllChunksOrdered returns the full chunk
sequence of a document ascending by chunk_index (spec section 4.1). -/
def getAllChunksOrdered (store : List Chunk) (d : String) : List Chunk :=
  sortRanked idxLE (chunksOf store d)

/-- The deduplication key: (document identity, chunk index)
(spec section 4.3 step 4). -/
def itemKey (r : SearchResultItem) : String × Int :=
  (r.file_path, r.chunk_index)

/-- Whether a result with the given key was already emitted. -/
def hasKey (acc : List SearchResultItem) (k : String × Int) : Bool :=
  acc.any (fun x => decide (itemKey x = k))

/-- Promote an already-emitted row to a direct hit: a chunk that is both
a direct hit and context keeps is_context = false and carries the hit
similarity. -/
def markAnchor (s : Rat) (x : SearchResultItem) : SearchResultItem :=
  { x with is_context := false, similarity := s }

/-- Emit one row into the deduplicated result list: a row whose key is
already present is dropped when it is context, and promotes the present
row when it is a direct hit; a new key is appended, keeping each
expansion block contiguous and the first-hit rank order stable
(spec section 4.3 steps 4-5). -/
def emitOne (acc : List SearchResultItem) (it : SearchResultItem) :
    List SearchResultItem :=
  if hasKey acc (itemKey it) then
    if it.is_context then acc
    else acc.map (fun x =>
      if decide (itemKey x = itemKey it) then markAnchor it.similarity x else x)
  else acc ++ [it]

/-- Deduplicate an emission sequence by key, in order. -/
def dedupEmissions (L : List SearchResultItem) : List SearchResultItem :=
  L.foldl emitOne []

/-- The result row of a direct hit: is_context false, its own similarity
(spec section 4.3 step 4). -/
def anchorItem (h : Chunk × Rat) : SearchResultItem :=
  ⟨h.1.document_id, h.1.content, (h.1.chunk_index : Int), h.2, false, false⟩

/-- The result row of a context chunk: is_context true, the anchor hit
similarity propagated (spec section 4.3 step 4). -/
def contextItem (s : Rat) (c : Chunk) : SearchResultItem :=
  ⟨c.document_id, c.content, (c.chunk_index : Int), s, true, false⟩

/-- The context chunks of a hit: up to context_size chunks immediately
before and after its chunk_index, clipped to the valid range (Nat
subtraction clips the low end at 0), the hit chunk itself excluded. -/
def contextChunks (store : List Chunk) (cs : Nat) (h : Chunk × Rat) :
    List Chunk :=
  (getChunksInRange store h.1.document_id (h.1.chunk_index - cs)
      (h.1.chunk_index + cs)).filter
    (fun c => !(decide (c.chunk_index = h.1.chunk_index)))

/-- The emission block of one hit: the hit row, then (when with_context)
its context rows. -/
def hitEmissions (store : List Chunk) (wc : Bool) (cs : Nat)
    (h : Chunk × Rat) : List SearchResultItem :=
  anchorItem h ::
    (if wc then (contextChunks store cs h).map (contextItem h.2) else [])

/-- The emission sequence over all hits, in descending-similarity hit
order (spec section 4.3 step 4). -/
def emissionsOf (store : List Chunk) (hits : List (Chunk × Rat))
    (wc : Bool) (cs : Nat) : List SearchResultItem :=
  (hits.map (hitEmissions store wc cs)).flatten

/-- Concatenation of chunk contents in chunk_index order. -/
def concatContents (l : List Chunk) : String :=
  (l.map (·.content)).foldl (· ++ ·) ""

/-- The similarity a reconstructed document carries: the maximum across
this search's hits in that document (spec section 4.3 step 4, full
document bullet); seeded with the anchor hit's own score. -/
def docMaxSim (hits : List (Chunk × Rat)) (d : String) (s0 : Rat) : Rat :=
  ((hits.filter (fun h => decide (h.1.document_id = d))).map (·.2)).foldl
    max s0

/-- The result row of a full-document reconstruction: the whole ordered
chunk sequence concatenated, is_full_document true, chunk_index of the
anchor hit, similarity the document's maximum hit score. -/
def fullDocItem (store : List Chunk) (hits : List (Chunk × Rat))
    (h : Chunk × Rat) : SearchResultItem :=
  ⟨h.1.document_id, concatContents (getAllChunksOrdered store h.1.document_id),
    (h.1.chunk_index : Int), docMaxSim hits h.1.document_id h.2, false, true⟩

/-- The full-document result list: each document reconstructed once, at
its first (highest-similarity) hit's position. -/
def fullDocResults (store : List Chunk) (hits : List (Chunk × Rat)) :
    List SearchResultItem :=
  hits.foldl (fun acc h =>
    if acc.any (fun x => decide (x.file_path = h.1.document_id)) then acc
    else acc ++ [fullDocItem store hits h]) []

/-- Modelled from the spec: the RAGService search path, steps 3-6 of spec
section 4.3 (the module rag_service.py is not under src/).  Empty hits
give the empty list; otherwise each hit is emitted in rank order with its
context expansion (or its whole document), deduplicated by
(document identity, chunk index). -/
def searchAlgo (store : List Chunk) (sim : Chunk → Rat) (limit : Nat)
    (wc : Bool) (cs : Nat) (fd : Bool) : List SearchResultItem :=
  let hits := topKSimilar store sim limit
  if fd then fullDocResults store hits
  else dedupEmissions (emissionsOf store hits wc cs)

/- ================================================================
   Part 5: the batch indexing loop (src/cli.py, index_documents).

   The per-file body is a try block: document_processor.process_file
   may raise (`.error`), a file yielding no chunks is skipped with a
   warning, rag_service.index_document may raise (`.error`); the
   trailing `except Exception` logs the error together with the file
   path and the loop continues with the next file.  process_file and
   index_document are parameters (their modules are not under src/);
   an index_document failure leaves the store unchanged (all-or-nothing
   per spec section 4.1, as in replaceDocument above).
   ================================================================ -/

/-- The running state of one batch indexing run: the store, the files
indexed so far (total_files), total_chunks, the files whose processing
failed (each logged with its path), and the files skipped for yielding
no chunks. -/
structure IndexRunState where
  store : List Chunk
  indexedFiles : List String
  totalChunks : Nat
  errorFiles : List String
  warnFiles : List String
deriving DecidableEq, Repr

/-- The loop body of index_documents (cli.py lines 99-116) for one file. -/
def processOneFile (pf : String → Except String (List String))
    (idx : String → List String → List Chunk → Except String (List Chunk))
    (acc : IndexRunState) (path : String) : IndexRunState :=
  match pf path with
  | .error _ => { acc with errorFiles := acc.errorFiles ++ [path] }
  | .ok chunks =>
    if chunks = [] then { acc with warnFiles := acc.warnFiles ++ [path] }
    else
      match idx path chunks acc.store with
      | .error _ => { acc with errorFiles := acc.errorFiles ++ [path] }
      | .ok store2 =>
          { acc with
            store := store2
            indexedFiles := acc.indexedFiles ++ [path]
            totalChunks := acc.totalChunks + chunks.length }

/-- The batch indexing run of cli.py index_documents over the walked file
list, starting from a store state. -/
def index_documents (pf : String → Except String (List String))
    (idx : String → List String → List Chunk → Except String (List Chunk))
    (files : List String) (s0 : List Chunk) : IndexRunState :=
  files.foldl (processOneFile pf idx) ⟨s0, [], 0, [], []⟩

/- ================================================================
   Part 6: the concrete five-chunk scenario of spec section 8.
   ================================================================ -/

/-- The standard basis vector with a one at position i (length 5). -/
def basis5 (i : Nat) : List Rat :=
  (List.range 5).map (fun j => if j = i then 1 else 0)

/-- A single indexed document of 5 chunks with pairwise orthogonal unit
embeddings. -/
def fiveChunkStore : List Chunk :=
  (List.range 5).map (fun i => ⟨"doc.txt", i, "chunk" ++ toString i, basis5 i⟩)

/-- The cosine similarity of each stored chunk against a query whose
embedding exactly matches chunk 2's embedding: on an orthonormal family
the cosine is 1 for the coinciding vector and 0 for every other. -/
def query2Sim (c : Chunk) : Rat := if c.embedding = basis5 2 then 1 else 0

/- ================================================================
   Part 7: auxiliary predicates and concrete fixtures for the proofs.
   ================================================================ -/

/-- Some emitted row carries the given key as a direct (non-context) hit. -/
def falseAt (acc : List SearchResultItem) (k : String × Int) : Prop :=
  ∃ r ∈ acc, itemKey r = k ∧ r.is_context = false

/-- A sample engine result row. -/
def sampleItem : SearchResultItem :=
  ⟨"doc.txt", "chunk2", 2, 1, false, false⟩

/-- A document processor whose process_file always raises. -/
def pfAlwaysFails (_ : String) : Except String (List String) :=
  .error "boom"

/-- A document processor returning one fixed chunk per file. -/
def pfOneChunk (p : String) : Except String (List String) := .ok [p]

/-- An index_document that stores each chunk with a basis embedding. -/
def idxStoreOk (p : String) (chunks : List String) (store : List Chunk) :
    Except String (List Chunk) :=
  .ok (store ++ chunks.enum.map (fun q => ⟨p, q.1, q.2, []⟩))

end McpRag

namespace McpRag

/- ================================================================
   Helper lemmas: the deduplicating emission fold.
   ================================================================ -/

theorem itemKey_markAnchor (s : Rat) (x : SearchResultItem) :
    itemKey (markAnchor s x) = itemKey x := rfl

theorem hasKey_iff (acc : List SearchResultItem) (k : String × Int) :
    hasKey acc k = true ↔ k ∈ acc.map itemKey := by
  simp [hasKey, List.any_eq_true, List.mem_map]

theorem keys_map_promote (acc : List SearchResultItem) (k : String × Int)
    (s : Rat) :
    (acc.map (fun x => if decide (itemKey x = k) then markAnchor s x else x)).map
        itemKey
      = acc.map itemKey := by
  rw [List.map_map]
  apply List.map_congr_left
  intro x _
  by_cases h : itemKey x = k <;> simp [h, Function.comp, itemKey_markAnchor]

theorem keys_emitOne (acc : List SearchResultItem) (it : SearchResultItem) :
    (emitOne acc it).map itemKey
      = if hasKey acc (itemKey it) then acc.map itemKey
        else acc.map itemKey ++ [itemKey it] := by
  unfold emitOne
  by_cases hk : hasKey acc (itemKey it) = true
  · rw [if_pos hk, if_pos hk]
    by_cases hc : it.is_context = true
    · rw [if_pos hc]
    · rw [if_neg hc]
      exact keys_map_promote acc (itemKey it) it.similarity
  · rw [if_neg hk, if_neg hk, List.map_append]
    rfl

theorem nodup_keys_emitOne {acc : List SearchResultItem}
    (it : SearchResultItem) (h : (acc.map itemKey).Nodup) :
    ((emitOne acc it).map itemKey).Nodup := by
  rw [keys_emitOne]
  by_cases hk : hasKey acc (itemKey it) = true
  · simpa [hk] using h
  · have hni : itemKey it ∉ acc.map itemKey := fun hm =>
      hk ((hasKey_iff acc (itemKey it)).mpr hm)
    simp only [hk, if_neg, Bool.false_eq_true, if_false]
    rw [List.nodup_append]
    refine ⟨h, List.nodup_singleton _, ?_⟩
    intro a ha hb
    rw [List.mem_singleton] at hb
    exact hni (hb ▸ ha)

theorem nodup_keys_foldl (L : List SearchResultItem) :
    ∀ acc : List SearchResultItem, (acc.map itemKey).Nodup →
      ((L.foldl emitOne acc).map itemKey).Nodup := by
  induction L with
  | nil => intro acc h; simpa using h
  | cons e t ih => intro acc h; exact ih _ (nodup_keys_emitOne e h)

theorem falseAt_emitOne_self (acc : List SearchResultItem)
    (it : SearchResultItem) (h : it.is_context = false) :
    falseAt (emitOne acc it) (itemKey it) := by
  unfold emitOne
  by_cases hk : hasKey acc (itemKey it) = true
  · simp only [hk, if_true, h, Bool.false_eq_true, if_false]
    have := (hasKey_iff acc (itemKey it)).mp hk
    obtain ⟨x, hx, hkey⟩ := List.mem_map.mp this
    refine ⟨markAnchor it.similarity x, ?_, ?_, rfl⟩
    · have hmem := List.mem_map_of_mem
        (fun x => if decide (itemKey x = itemKey it) then
            markAnchor it.similarity x else x) hx
      simpa [hkey] using hmem
    · rw [itemKey_markAnchor, hkey]
  · simp only [hk, Bool.false_eq_true, if_false]
    exact ⟨it, by simp, rfl, h⟩

theorem falseAt_emitOne (acc : List SearchResultItem)
    (it : SearchResultItem) (k : String × Int) (h : falseAt acc k) :
    falseAt (emitOne acc it) k := by
  obtain ⟨r, hr, hrk, hrc⟩ := h
  unfold emitOne
  by_cases hk : hasKey acc (itemKey it) = true
  · by_cases hc : it.is_context = true
    · exact ⟨r, by simp [hk, hc, hr], hrk, hrc⟩
    · simp only [hk, if_true, hc, if_false]
      by_cases hm : itemKey r = itemKey it
      · refine ⟨markAnchor it.similarity r, ?_, ?_, rfl⟩
        · have hmem := List.mem_map_of_mem
            (fun x => if decide (itemKey x = itemKey it) then
                markAnchor it.similarity x else x) hr
          simpa [hm] using hmem
        · rw [itemKey_markAnchor, hrk]
      · refine ⟨r, ?_, hrk, hrc⟩
        have hmem := List.mem_map_of_mem
          (fun x => if decide (itemKey x = itemKey it) then
              markAnchor it.similarity x else x) hr
        simpa [hm] using hmem
  · exact ⟨r, by simp [hk, hr], hrk, hrc⟩

theorem falseAt_foldl (L : List SearchResultItem) :
    ∀ (acc : List SearchResultItem) (k : String × Int), falseAt acc k →
      falseAt (L.foldl emitOne acc) k := by
  induction L with
  | nil => intro acc k h; simpa using h
  | cons e t ih => intro acc k h; exact ih _ k (falseAt_emitOne acc e k h)

theorem falseAt_foldl_of_mem (L : List SearchResultItem) :
    ∀ acc : List SearchResultItem, ∀ e ∈ L, e.is_context = false →
      falseAt (L.foldl emitOne acc) (itemKey e) := by
  induction L with
  | nil => intro acc e he; exact absurd he (List.not_mem_nil e)
  | cons a t ih =>
    intro acc e he hec
    rcases List.mem_cons.mp he with rfl | ht
    · exact falseAt_foldl t _ _ (falseAt_emitOne_self acc e hec)
    · exact ih (emitOne acc a) e ht hec

theorem eq_of_keys_nodup {l : List SearchResultItem}
    (h : (l.map itemKey).Nodup) {r r' : SearchResultItem}
    (hr : r ∈ l) (hr' : r' ∈ l) (hk : itemKey r = itemKey r') : r = r' :=
  List.inj_on_of_nodup_map h hr hr' hk

theorem dedup_anchor_false (L : List SearchResultItem)
    {r : SearchResultItem} (hr : r ∈ dedupEmissions L)
    (e : SearchResultItem) (he : e ∈ L) (hec : e.is_context = false)
    (hk : itemKey e = itemKey r) : r.is_context = false := by
  obtain ⟨r', hr', hk', hc'⟩ := falseAt_foldl_of_mem L [] e he hec
  have hnd : ((dedupEmissions L).map itemKey).Nodup :=
    nodup_keys_foldl L [] (by simp)
  have : r = r' := eq_of_keys_nodup hnd hr hr' (by rw [hk', ← hk])
  rw [this]; exact hc'

theorem sim_emitOne (P : Rat → Prop) (acc : List SearchResultItem)
    (it : SearchResultItem) (hacc : ∀ r ∈ acc, P r.similarity)
    (hit : P it.similarity) :
    ∀ r ∈ emitOne acc it, P r.similarity := by
  intro r hr
  unfold emitOne at hr
  by_cases hk : hasKey acc (itemKey it) = true
  · by_cases hc : it.is_context = true
    · rw [if_pos hk, if_pos hc] at hr; exact hacc r hr
    · rw [if_pos hk, if_neg hc] at hr
      obtain ⟨x, hx, rfl⟩ := List.mem_map.mp hr
      by_cases hm : itemKey x = itemKey it
      · simpa [hm, markAnchor] using hit
      · simpa [hm] using hacc x hx
  · rw [if_neg hk] at hr
    rcases List.mem_append.mp hr with hx | hx
    · exact hacc r hx
    · rw [List.mem_singleton] at hx; exact hx ▸ hit

theorem sim_foldl (P : Rat → Prop) (L : List SearchResultItem) :
    ∀ acc : List SearchResultItem, (∀ r ∈ acc, P r.similarity) →
      (∀ e ∈ L, P e.similarity) →
      ∀ r ∈ L.foldl emitOne acc, P r.similarity := by
  induction L with
  | nil => intro acc hacc _ r hr; exact hacc r hr
  | cons e t ih =>
    intro acc hacc hL r hr
    exact ih (emitOne acc e)
      (sim_emitOne P acc e hacc (hL e (List.mem_cons_self e t)))
      (fun x hx => hL x (List.mem_cons_of_mem e hx)) r hr

/- ================================================================
   Helper lemmas: ranking, hits and expansion.
   ================================================================ -/

theorem mem_insertRanked {le : Chunk → Chunk → Bool} {c : Chunk}
    {l : List Chunk} : ∀ {x : Chunk}, x ∈ insertRanked le c l →
      x = c ∨ x ∈ l := by
  induction l with
  | nil => intro x hx; simpa [insertRanked] using hx
  | cons a t ih =>
    intro x hx
    unfold insertRanked at hx
    by_cases h : le c a = true
    · rw [if_pos h] at hx
      rcases List.mem_cons.mp hx with rfl | hx
      · exact .inl rfl
      · exact .inr hx
    · rw [if_neg h] at hx
      rcases List.mem_cons.mp hx with rfl | hx
      · exact .inr (List.mem_cons_self _ _)
      · rcases ih hx with rfl | hx
        · exact .inl rfl
        · exact .inr (List.mem_cons_of_mem _ hx)

theorem mem_sortRanked {le : Chunk → Chunk → Bool} {l : List Chunk}
    {x : Chunk} (h : x ∈ sortRanked le l) : x ∈ l := by
  induction l with
  | nil => simp [sortRanked] at h
  | cons a t ih =>
    unfold sortRanked at h
    rcases mem_insertRanked h with rfl | hx
    · exact List.mem_cons_self _ _
    · exact List.mem_cons_of_mem _ (ih hx)

theorem mem_topKSimilar {store : List Chunk} {sim : Chunk → Rat} {k : Nat}
    {p : Chunk × Rat} (h : p ∈ topKSimilar store sim k) :
    p.1 ∈ store ∧ p.2 = sim p.1 := by
  unfold topKSimilar at h
  obtain ⟨c, hc, rfl⟩ := List.mem_map.mp h
  exact ⟨mem_sortRanked (List.mem_of_mem_take hc), rfl⟩

theorem emissions_sim {store : List Chunk} {hits : List (Chunk × Rat)}
    {wc : Bool} {cs : Nat} {e : SearchResultItem}
    (h : e ∈ emissionsOf store hits wc cs) :
    ∃ p ∈ hits, e.similarity = p.2 := by
  unfold emissionsOf at h
  obtain ⟨l, hl, hel⟩ := List.mem_flatten.mp h
  obtain ⟨p, hp, rfl⟩ := List.mem_map.mp hl
  unfold hitEmissions at hel
  rcases List.mem_cons.mp hel with rfl | htail
  · exact ⟨p, hp, rfl⟩
  · by_cases hwc : wc = true
    · rw [if_pos hwc] at htail
      obtain ⟨c, _, rfl⟩ := List.mem_map.mp htail
      exact ⟨p, hp, rfl⟩
    · rw [if_neg hwc] at htail
      exact absurd htail (List.not_mem_nil e)

theorem le_foldl_max (l : List Rat) : ∀ s0 : Rat, s0 ≤ l.foldl max s0 := by
  induction l with
  | nil => intro s0; simp
  | cons a t ih =>
    intro s0
    exact le_trans (le_max_left s0 a) (ih (max s0 a))

theorem foldl_max_le (l : List Rat) (B : Rat) :
    ∀ s0 : Rat, s0 ≤ B → (∀ x ∈ l, x ≤ B) → l.foldl max s0 ≤ B := by
  induction l with
  | nil => intro s0 h _; simpa using h
  | cons a t ih =>
    intro s0 h hl
    exact ih (max s0 a) (max_le h (hl a (List.mem_cons_self a t)))
      (fun x hx => hl x (List.mem_cons_of_mem a hx))

theorem docMaxSim_bound {hits : List (Chunk × Rat)} {d : String} {s0 : Rat}
    (h0l : -1 ≤ s0) (h0u : s0 ≤ 1)
    (hh : ∀ p ∈ hits, -1 ≤ p.2 ∧ p.2 ≤ 1) :
    -1 ≤ docMaxSim hits d s0 ∧ docMaxSim hits d s0 ≤ 1 := by
  unfold docMaxSim
  refine ⟨le_trans h0l (le_foldl_max _ _), ?_⟩
  apply foldl_max_le _ _ _ h0u
  intro x hx
  obtain ⟨p, hp, rfl⟩ := List.mem_map.mp hx
  exact (hh p (List.mem_filter.mp hp).1).2

theorem mem_skipAppend_foldl (f : Chunk × Rat → SearchResultItem)
    (cond : List SearchResultItem → Chunk × Rat → Bool)
    (l : List (Chunk × Rat)) :
    ∀ (acc : List SearchResultItem) (r : SearchResultItem),
      r ∈ l.foldl (fun acc h => if cond acc h then acc else acc ++ [f h]) acc →
      r ∈ acc ∨ ∃ p ∈ l, r = f p := by
  induction l with
  | nil => intro acc r h; exact .inl h
  | cons a t ih =>
    intro acc r h
    rcases ih _ r h with hmem | ⟨p, hp, rfl⟩
    · simp only [] at hmem
      by_cases hc : cond acc a = true
      · rw [if_pos hc] at hmem; exact .inl hmem
      · rw [if_neg hc] at hmem
        rcases List.mem_append.mp hmem with hx | hx
        · exact .inl hx
        · rw [List.mem_singleton] at hx
          exact .inr ⟨a, List.mem_cons_self a t, hx⟩
    · exact .inr ⟨p, List.mem_cons_of_mem a hp, rfl⟩

theorem mem_fullDocResults {store : List Chunk} {hits : List (Chunk × Rat)}
    {r : SearchResultItem} (h : r ∈ fullDocResults store hits) :
    ∃ p ∈ hits, r = fullDocItem store hits p := by
  unfold fullDocResults at h
  rcases mem_skipAppend_foldl (fullDocItem store hits)
      (fun acc h => acc.any (fun x => decide (x.file_path = h.1.document_id)))
      hits [] r h with hmem | hx
  · exact absurd hmem (List.not_mem_nil r)
  · exact hx

theorem searchAlgo_sim_bounded (store : List Chunk) (sim : Chunk → Rat)
    (limit : Nat) (wc : Bool) (cs : Nat) (fd : Bool)
    (hb : ∀ c ∈ store, -1 ≤ sim c ∧ sim c ≤ 1) :
    ∀ r ∈ searchAlgo store sim limit wc cs fd,
      -1 ≤ r.similarity ∧ r.similarity ≤ 1 := by
  intro r hr
  have hhit : ∀ p ∈ topKSimilar store sim limit, -1 ≤ p.2 ∧ p.2 ≤ 1 := by
    intro p hp
    obtain ⟨hs, he⟩ := mem_topKSimilar hp
    rw [he]; exact hb _ hs
  unfold searchAlgo at hr
  by_cases hfd : fd = true
  · rw [if_pos hfd] at hr
    obtain ⟨p, hp, rfl⟩ := mem_fullDocResults hr
    exact docMaxSim_bound (hhit p hp).1 (hhit p hp).2 hhit
  · rw [if_neg hfd] at hr
    refine sim_foldl (fun s => -1 ≤ s ∧ s ≤ 1) _ [] (by simp) ?_ r hr
    intro e he
    obtain ⟨p, hp, hps⟩ := emissions_sim he
    rw [hps]; exact hhit p hp

/- ================================================================
   Helper lemmas: the store replace operation and the indexing loop.
   ================================================================ -/

theorem freshChunks_id (d : String) (chunks : List (String × List Rat)) :
    ∀ c ∈ freshChunks d chunks, c.document_id = d := by
  intro c hc
  obtain ⟨p, _, rfl⟩ := List.mem_map.mp hc
  rfl

theorem searchAlgo_false (store : List Chunk) (sim : Chunk → Rat)
    (limit : Nat) (wc : Bool) (cs : Nat) :
    searchAlgo store sim limit wc cs false
      = dedupEmissions
          (emissionsOf store (topKSimilar store sim limit) wc cs) := rfl

theorem index_documents_append
    (pf : String → Except String (List String))
    (idx : String → List String → List Chunk → Except String (List Chunk))
    (l1 l2 : List String) (s0 : List Chunk) :
    index_documents pf idx (l1 ++ l2) s0
      = l2.foldl (processOneFile pf idx) (index_documents pf idx l1 s0) := by
  unfold index_documents
  rw [List.foldl_append]

/- ================================================================
   Claim theorems.
   ================================================================ -/

/-- C1 (code evaluated at the failing input): with zero documents in
the store the search handler raises HTTPException(404) before ever
calling rag_service.search — the call list is empty for every engine
behavior — but its own `except Exception` clause rewraps that exception
as HTTPException(500), the very same status a generic engine failure is
surfaced with (second conjunct), so the caller cannot tell the
empty-index condition from a generic search error. -/
theorem c1_empty_index_wrapped_to_500 :
    (∀ (p : SearchInput) (engine : Except String (List SearchResultItem)),
      searchEndpoint 0 p engine = (.httpError 500 (.http 404 true), []))
    ∧ (∀ (p : SearchInput) (m : String),
      searchEndpoint 1 p (.error m) = (.httpError 500 (.engineErr m), [p])) :=
  ⟨fun _ _ => rfl, fun _ _ => rfl⟩

/-- C3: importing src.main fails with an ImportError naming MCPServer,
because src/mcp_server.py binds no such name; consequently running
`python -m src.main` stops at the import and the module body — hence
main() and server.start — is never reached. -/
theorem c3_main_import_error :
    load_main = .error ⟨"src.mcp_server", "MCPServer"⟩
    ∧ "MCPServer" ∉ mcp_server_names
    ∧ run_main_module = .importFailed ⟨"src.mcp_server", "MCPServer"⟩
    ∧ run_main_module ≠ .bodyRan :=
  ⟨rfl, by decide, rfl, by decide⟩

/-- C4: importing src.cli fails with an ImportError (the failure is
raised while executing its `from .main import create_app` statement,
whose loading of src.main dies at the missing MCPServer); src.main
indeed defines no name create_app, so the name lookup itself would also
fail; consequently the module body — hence both the index and the
runserver command — never runs. -/
theorem c4_cli_import_error :
    load_cli = .error ⟨"src.mcp_server", "MCPServer"⟩
    ∧ "create_app" ∉ main_names
    ∧ fromImport main_names "src.main" "create_app"
        = .error ⟨"src.main", "create_app"⟩
    ∧ run_cli_module ≠ .bodyRan :=
  ⟨rfl, by decide, rfl, by decide⟩

/-- C6: with at least one document in the store, an engine search that
yields no hits produces a successful response with an empty result list
and the no-matches message — an outcome distinct from every HTTP-error
outcome, the empty-index one included. -/
theorem c6_empty_results_is_success (docCount : Nat) (h : docCount ≠ 0)
    (p : SearchInput) :
    searchEndpoint docCount p (.ok []) = (.ok [] (.noMatches p.query), [p])
    ∧ ∀ (s : Nat) (e : SearchExn),
        (SearchResponse.ok [] (.noMatches p.query)) ≠ .httpError s e := by
  constructor
  · unfold searchEndpoint searchBody
    rw [if_neg h]
    rfl
  · intro s e he
    cases he

/-- Witness for C6 at a concrete input. -/
theorem c6_empty_results_is_success_witness :
    searchEndpoint 1 (.withDefaults "q") (.ok [])
        = (.ok [] (.noMatches "q"), [.withDefaults "q"])
    ∧ ∀ (s : Nat) (e : SearchExn),
        (SearchResponse.ok [] (.noMatches "q")) ≠ .httpError s e :=
  c6_empty_results_is_success 1 (by decide) (.withDefaults "q")

/-- C8 counterexample: the request model carries no value constraints,
so the payload with limit = 0 and context_size = -1 is accepted at the
interface and, on a non-empty store, is handed to the engine search
verbatim — refuting the claim that such requests are rejected before
reaching the engine. -/
theorem c8_counterexample_unvalidated_limits :
    searchInputAccepted ⟨"q", 0, true, -1, false⟩ = true
    ∧ (SearchInput.mk "q" 0 true (-1) false).limit < 1
    ∧ (SearchInput.mk "q" 0 true (-1) false).context_size < 0
    ∧ (searchEndpoint 1 ⟨"q", 0, true, -1, false⟩ (.ok [])).2
        = [⟨"q", 0, true, -1, false⟩] :=
  ⟨rfl, by decide, by decide, rfl⟩

/-- C8 amended: the interface enforces only integer typing — every
well-typed request is accepted whatever its limit and context_size, and
whenever the store is non-empty the engine search receives exactly the
request's field values. -/
theorem c8_amended_all_ints_accepted (p : SearchInput) (docCount : Nat)
    (h : docCount ≠ 0) (engine : Except String (List SearchResultItem)) :
    searchInputAccepted p = true
    ∧ (searchEndpoint docCount p engine).2 = [p] := by
  refine ⟨rfl, ?_⟩
  unfold searchEndpoint searchBody
  rw [if_neg h]
  cases engine with
  | error m => rfl
  | ok results =>
    by_cases hr : results = []
    · subst hr; rfl
    · simp [hr]

/-- Witness for the amended C8 at a concrete input. -/
theorem c8_amended_all_ints_accepted_witness :
    searchInputAccepted ⟨"w", -3, false, -2, true⟩ = true
    ∧ (searchEndpoint 2 ⟨"w", -3, false, -2, true⟩ (.ok [sampleItem])).2
        = [⟨"w", -3, false, -2, true⟩] :=
  c8_amended_all_ints_accepted ⟨"w", -3, false, -2, true⟩ 2 (by decide) _

/-- C10: the dependency raises HTTP 403 exactly when the API_KEY
environment variable held a non-empty value at import time and the
X-API-KEY header is missing, empty, or different from it; with API_KEY
unset or empty every request passes with no credential check at all. -/
theorem c10_api_key_check (envKey header : Option String) :
    (get_api_key envKey header = .forbidden ↔
      (∃ k, envKey = some k ∧ k ≠ "" ∧
        (header = none ∨ header = some "" ∨ header ≠ some k)))
    ∧ (pyTruthy envKey = false → get_api_key envKey header = .allow none) := by
  constructor
  · cases envKey with
    | none => simp [get_api_key, pyTruthy]
    | some s =>
      by_cases hs : s = ""
      · subst hs; simp [get_api_key, pyTruthy]
      · cases header with
        | none => simp [get_api_key, pyTruthy, hs]
        | some h =>
          by_cases hh : h = ""
          · subst hh; simp [get_api_key, pyTruthy, hs]
          · by_cases he : h = s
            · subst he; simp [get_api_key, pyTruthy, hs, hh]
            · simp [get_api_key, pyTruthy, hs, hh, he]
  · intro h
    unfold get_api_key
    rw [h]
    rfl

/-- C2 (spec-modelled store): replaceDocument is all-or-nothing — on
failure the observable store is exactly the pre-call state; on success
the document's chunk set is exactly the new sequence (indices assigned
by position) and every other document's chunk set is untouched; and the
observable state is always one of exactly those two, never a partial or
interleaved mixture. -/
theorem c2_replace_document_atomic (store : List Chunk) (d : String)
    (chunks : List (String × List Rat)) :
    replaceDocument true store d chunks = (.error .failure, store)
    ∧ chunksOf (replaceDocument false store d chunks).2 d
        = freshChunks d chunks
    ∧ (∀ e, e ≠ d →
        chunksOf (replaceDocument false store d chunks).2 e = chunksOf store e)
    ∧ (∀ fails, (replaceDocument fails store d chunks).2 = store
        ∨ (replaceDocument fails store d chunks).2
          = store.filter (fun c => !(decide (c.document_id = d)))
            ++ freshChunks d chunks) := by
  refine ⟨rfl, ?_, ?_, ?_⟩
  · show chunksOf
        (store.filter (fun c => !(decide (c.document_id = d)))
          ++ freshChunks d chunks) d = freshChunks d chunks
    unfold chunksOf
    rw [List.filter_append]
    have h1 : (store.filter (fun c => !(decide (c.document_id = d)))).filter
        (fun c => decide (c.document_id = d)) = [] := by
      rw [List.filter_eq_nil_iff]
      intro a ha
      have hm := (List.mem_filter.mp ha).2
      simp only [Bool.not_eq_eq_eq_not, Bool.not_true, decide_eq_false_iff_not]
        at hm
      simp [hm]
    have h2 : (freshChunks d chunks).filter
        (fun c => decide (c.document_id = d)) = freshChunks d chunks := by
      rw [List.filter_eq_self]
      intro a ha
      simp [freshChunks_id d chunks a ha]
    rw [h1, h2, List.nil_append]
  · intro e he
    show chunksOf
        (store.filter (fun c => !(decide (c.document_id = d)))
          ++ freshChunks d chunks) e = chunksOf store e
    unfold chunksOf
    rw [List.filter_append]
    have h2 : (freshChunks d chunks).filter
        (fun c => decide (c.document_id = e)) = [] := by
      rw [List.filter_eq_nil_iff]
      intro a ha
      have hid := freshChunks_id d chunks a ha
      simp [hid, Ne.symm he]
    have h1 : (store.filter (fun c => !(decide (c.document_id = d)))).filter
        (fun c => decide (c.document_id = e))
        = store.filter (fun c => decide (c.document_id = e)) := by
      rw [List.filter_filter]
      apply List.filter_congr
      intro a _
      by_cases hae : a.document_id = e
      · simp only [hae, decide_True, Bool.true_and, decide_eq_true_eq]
        simp [he]
      · simp [hae]
    rw [h1, h2, List.append_nil]
  · intro fails
    cases fails
    · exact .inr rfl
    · exact .inl rfl

/-- C7: in a batch indexing run, a file whose chunking or indexing
fails only adds its own path to the error log — the store and the
per-file tallies of the earlier files are untouched — and the loop then
processes the remaining files exactly as it would have from that
state. -/
theorem c7_batch_failure_isolation
    (pf : String → Except String (List String))
    (idx : String → List String → List Chunk → Except String (List Chunk))
    (files1 : List String) (f : String) (files2 : List String)
    (s0 : List Chunk)
    (hfail : (∃ e, pf f = .error e) ∨
      (∃ cs, pf f = .ok cs ∧ cs ≠ [] ∧
        ∃ e, idx f cs (index_documents pf idx files1 s0).store = .error e)) :
    index_documents pf idx (files1 ++ f :: files2) s0
      = files2.foldl (processOneFile pf idx)
          { index_documents pf idx files1 s0 with
            errorFiles :=
              (index_documents pf idx files1 s0).errorFiles ++ [f] } := by
  rw [index_documents_append, List.foldl_cons]
  congr 1
  unfold processOneFile
  rcases hfail with ⟨e, he⟩ | ⟨cs, hcs, hne, e, he⟩
  · rw [he]
  · simp [hcs, hne, he]

/-- Witness for C7 at a concrete input: a chunker that raises on the
second file of a three-file run. -/
theorem c7_batch_failure_isolation_witness :
    index_documents pfAlwaysFails idxStoreOk ([] ++ "a.txt" :: ["b.txt"]) []
      = ["b.txt"].foldl (processOneFile pfAlwaysFails idxStoreOk)
          { index_documents pfAlwaysFails idxStoreOk [] [] with
            errorFiles :=
              (index_documents pfAlwaysFails idxStoreOk [] []).errorFiles
                ++ ["a.txt"] } :=
  c7_batch_failure_isolation pfAlwaysFails idxStoreOk [] "a.txt" ["b.txt"] []
    (.inl ⟨"boom", rfl⟩)

/-- C9: every element of a successful search response is one of the
engine's SearchResultItem rows, returned verbatim (first conjunct: the
handler passes the engine list through unchanged), and in the
spec-modelled engine every returned row's similarity lies in [-1, 1]
whenever the similarity metric maps every stored chunk into [-1, 1]
(cosine similarity, the spec's reference metric, does). -/
theorem c9_result_shape_and_similarity :
    (∀ docCount : Nat, docCount ≠ 0 →
      ∀ (p : SearchInput) (rs : List SearchResultItem), rs ≠ [] →
        (searchEndpoint docCount p (.ok rs)).1
          = .ok rs (.found p.query rs.length))
    ∧ (∀ (store : List Chunk) (sim : Chunk → Rat) (limit : Nat)
        (wc : Bool) (cs : Nat) (fd : Bool),
        (∀ c ∈ store, -1 ≤ sim c ∧ sim c ≤ 1) →
        ∀ r ∈ searchAlgo store sim limit wc cs fd,
          -1 ≤ r.similarity ∧ r.similarity ≤ 1) := by
  constructor
  · intro docCount h p rs hrs
    unfold searchEndpoint searchBody
    rw [if_neg h]
    simp [hrs]
  · exact searchAlgo_sim_bounded

/-- Witness for C9 at concrete inputs. -/
theorem c9_result_shape_and_similarity_witness :
    (searchEndpoint 1 (.withDefaults "q") (.ok [sampleItem])).1
        = .ok [sampleItem] (.found "q" 1)
    ∧ ∀ r ∈ searchAlgo fiveChunkStore query2Sim 1 true 1 false,
        -1 ≤ r.similarity ∧ r.similarity ≤ 1 :=
  ⟨c9_result_shape_and_similarity.1 1 (by decide) (.withDefaults "q")
      [sampleItem] (by decide),
   c9_result_shape_and_similarity.2 fiveChunkStore query2Sim 1 true 1 false
      (by decide)⟩

/-- C5 (spec-modelled engine): on the five-chunk document with a query
embedding equal to chunk 2's, search with limit 1, context on, context
size 1 returns exactly chunks 1, 2, 3 — chunk 2 as the non-context hit
with similarity 1, which is maximal (second conjunct), chunks 1 and 3
as context inheriting that score — indices -1 and 5 never appear, and
in general the result set is deduplicated by (document identity, chunk
index) (fourth conjunct) with any chunk that is also a direct hit kept
as is_context = false (fifth conjunct). -/
theorem c5_context_expansion_and_dedup :
    ((searchAlgo fiveChunkStore query2Sim 1 true 1 false).map
        (fun r => (r.chunk_index, r.is_context, r.similarity))
      = [(2, false, 1), (1, true, 1), (3, true, 1)])
    ∧ (∀ c ∈ fiveChunkStore, query2Sim c ≤ 1)
    ∧ (∀ r ∈ searchAlgo fiveChunkStore query2Sim 1 true 1 false,
        r.chunk_index ≠ -1 ∧ r.chunk_index ≠ 5)
    ∧ (∀ (store : List Chunk) (sim : Chunk → Rat) (limit cs : Nat)
        (wc : Bool),
        ((searchAlgo store sim limit wc cs false).map itemKey).Nodup)
    ∧ (∀ (store : List Chunk) (sim : Chunk → Rat) (limit cs : Nat)
        (wc : Bool),
        ∀ r ∈ searchAlgo store sim limit wc cs false,
          ∀ p ∈ topKSimilar store sim limit,
            itemKey (anchorItem p) = itemKey r → r.is_context = false) := by
  refine ⟨by decide, by decide, by decide, ?_, ?_⟩
  · intro store sim limit cs wc
    rw [searchAlgo_false]
    unfold dedupEmissions
    exact nodup_keys_foldl _ [] (by simp)
  · intro store sim limit cs wc r hr p hp hkey
    rw [searchAlgo_false] at hr
    have hmem : anchorItem p
        ∈ emissionsOf store (topKSimilar store sim limit) wc cs := by
      unfold emissionsOf
      apply List.mem_flatten.mpr
      refine ⟨hitEmissions store wc cs p, List.mem_map_of_mem _ hp, ?_⟩
      unfold hitEmissions
      exact List.mem_cons_self _ _
    exact dedup_anchor_false _ hr (anchorItem p) hmem rfl hkey

end McpRag
